import Mathlib

/-!
Shallow embedding of the Color Crafter palette-generation engine
(`src/lib/color-utils.ts`, later revision) in Lean 4.

JavaScript strings are modelled as `List Char` and JavaScript numbers as
exact rationals (the type `Q` below): the engine's arithmetic is plain
field arithmetic, min/max and floor/round, so exact rationals model the
computations faithfully away from floating-point ulp boundaries.  The
ambient random source (`Math.random`) is modelled as an explicit stream
`σ : ℕ → Q` together with a cursor index that each draw advances; every
theorem about code that can draw quantifies over the stream.
-/

/-- JavaScript strings as lists of characters. -/
abbrev JStr := List Char

/-- Whitespace characters recognised by JavaScript `String.prototype.trim`
(ASCII subset plus NBSP; other exotic Unicode space code points never occur
in the inputs the engine handles). -/
def isJsSpace (c : Char) : Bool :=
  c = ' ' || c = '\t' || c = '\n' || c = '\r' || c = '\x0b' || c = '\x0c' || c = ' '

/-- `String.prototype.trim`: drop whitespace from both ends. -/
def jsTrim (s : JStr) : JStr :=
  ((s.dropWhile isJsSpace).reverse.dropWhile isJsSpace).reverse

/-- `String.prototype.replace('#', '')`: remove the first occurrence of `#`. -/
def replaceFirstHash : JStr → JStr
  | [] => []
  | c :: rest => if c = '#' then rest else c :: replaceFirstHash rest

/-- ASCII fragment of `String.prototype.toUpperCase` (the engine only ever
upper-cases hex digits and `#`). -/
def jsToUpper (c : Char) : Char :=
  if 'a' ≤ c ∧ c ≤ 'z' then Char.ofNat (c.toNat - 32) else c

/-- The character class `[0-9A-Fa-f]` of the validation regex. -/
def isHexDigit (c : Char) : Bool :=
  c ∈ "0123456789abcdefABCDEF".data

/-- The canonical character class `[0-9A-F]` (upper-case form). -/
def isUpperHexDigit (c : Char) : Bool :=
  c ∈ "0123456789ABCDEF".data

/-- Numeric value of a hex digit. -/
def hexVal (c : Char) : ℕ :=
  if '0' ≤ c ∧ c ≤ '9' then c.toNat - '0'.toNat
  else if 'a' ≤ c ∧ c ≤ 'f' then c.toNat - 'a'.toNat + 10
  else if 'A' ≤ c ∧ c ≤ 'F' then c.toNat - 'A'.toNat + 10
  else 0

/-- Lower-case hex digit for a value in `[0,15]` (as produced by
`Number.prototype.toString(16)`). -/
def hexDigitChar (n : ℕ) : Char :=
  "0123456789abcdef".data.getD n '0'

/--
`normalizeHex` from the source:
```js
const value = hex.trim().replace('#', '');
if (value.length === 3) {
  return `#${value.split('').map((ch) => ch.repeat(2)).join('')}`;
}
return `#${value.slice(0, 6)}`.toUpperCase();
```
Note the 3-digit branch returns without upper-casing.
-/
def normalizeHex (hex : JStr) : JStr :=
  let value := replaceFirstHash (jsTrim hex)
  if value.length = 3 then
    '#' :: value.flatMap (fun c => [c, c])
  else
    ('#' :: value.take 6).map jsToUpper

/--
`isValidHex` from the source: `/^#?[0-9A-Fa-f]{6}$/.test(hex.trim())`,
written out as the equivalent structural check: after trimming, an optional
leading `#` followed by exactly six hex digits.
-/
def isValidHex (hex : JStr) : Bool :=
  let t := jsTrim hex
  let digits := if t.head? = some '#' then t.tail else t
  digits.length = 6 && digits.all isHexDigit

/-- The canonical output pattern `^#[0-9A-F]{6}$` of the spec. -/
def isCanonicalHex (s : JStr) : Bool :=
  match s with
  | '#' :: cs => cs.length = 6 && cs.all isUpperHexDigit
  | _ => false

-- Sanity checks on concrete strings.
example : normalizeHex "#abc".data = "#aabbcc".data := by decide
example : normalizeHex "#1a2b3c".data = "#1A2B3C".data := by decide
example : isValidHex "#1a2b3c".data = true := by decide
example : isValidHex "1a2b3c".data = true := by decide
example : isValidHex "#1a2b3".data = false := by decide
example : isValidHex "#1a2b3cz".data = false := by decide

/-! ### JavaScript numbers

JavaScript numbers are modelled as exact rationals.  (Mathlib's `ℚ` is
not used because its normalizing arithmetic does not reduce inside the
kernel; `Q` below carries an unnormalized fraction — an integer
numerator over a positive integer denominator — on which every engine
computation is plain integer arithmetic.)  Two fractions denote the same
number iff `Q.qeq` holds; all engine operations are congruent with
respect to `Q.qeq`. -/

structure Q where
  n : ℤ
  d : ℤ
  dpos : 0 < d

namespace Q

def ofInt (k : ℤ) : Q := ⟨k, 1, one_pos⟩

/-- Build `a / b`; a non-positive denominator (never produced by the
engine) falls back to denominator 1. -/
def ofFrac (a b : ℤ) : Q :=
  if h : 0 < b then ⟨a, b, h⟩ else ⟨a, 1, one_pos⟩

instance (m : ℕ) : OfNat Q m := ⟨ofInt m⟩
instance : NatCast Q := ⟨fun m => ofInt m⟩
instance : IntCast Q := ⟨fun m => ofInt m⟩
instance : OfScientific Q :=
  ⟨fun m b e => if b then ofFrac m (10 ^ e) else ofInt (m * 10 ^ e)⟩

def add (x y : Q) : Q := ⟨x.n * y.d + y.n * x.d, x.d * y.d, mul_pos x.dpos y.dpos⟩

def neg (x : Q) : Q := ⟨-x.n, x.d, x.dpos⟩

def mul (x y : Q) : Q := ⟨x.n * y.n, x.d * y.d, mul_pos x.dpos y.dpos⟩

def inv (x : Q) : Q :=
  if h : 0 < x.n then ⟨x.d, x.n, h⟩
  else if h' : x.n < 0 then ⟨-x.d, -x.n, by omega⟩
  else ⟨0, 1, one_pos⟩

instance : Add Q := ⟨add⟩
instance : Neg Q := ⟨neg⟩
instance : Sub Q := ⟨fun x y => add x (neg y)⟩
instance : Mul Q := ⟨mul⟩
instance : Div Q := ⟨fun x y => mul x (inv y)⟩

/-- Value-level order: `x ≤ y` iff cross-multiplied numerators compare. -/
def qle (x y : Q) : Prop := x.n * y.d ≤ y.n * x.d

def qlt (x y : Q) : Prop := x.n * y.d < y.n * x.d

/-- Value-level equality of fractions (JS `===` on the numbers denoted). -/
def qeq (x y : Q) : Prop := x.n * y.d = y.n * x.d

instance : LE Q := ⟨qle⟩
instance : LT Q := ⟨qlt⟩

instance (x y : Q) : Decidable (x ≤ y) :=
  inferInstanceAs (Decidable (x.n * y.d ≤ y.n * x.d))
instance (x y : Q) : Decidable (x < y) :=
  inferInstanceAs (Decidable (x.n * y.d < y.n * x.d))
instance (x y : Q) : Decidable (qeq x y) :=
  inferInstanceAs (Decidable (x.n * y.d = y.n * x.d))

/-- `Math.max`. -/
def qmax (x y : Q) : Q := if x ≤ y then y else x

/-- `Math.min`. -/
def qmin (x y : Q) : Q := if x ≤ y then x else y

instance : Max Q := ⟨qmax⟩
instance : Min Q := ⟨qmin⟩

/-- `Math.abs`. -/
def qabs (x : Q) : Q := ⟨|x.n|, x.d, x.dpos⟩

/-- `Math.floor`. -/
def floor (x : Q) : ℤ := x.n.fdiv x.d

/-- Truncation towards zero (the JavaScript `%` operator's quotient). -/
def trunc (x : Q) : ℤ := x.n.tdiv x.d

theorem qle_refl (x : Q) : x ≤ x := by
  show x.n * x.d ≤ x.n * x.d
  exact le_rfl

theorem qle_trans {x y z : Q} (h₁ : x ≤ y) (h₂ : y ≤ z) : x ≤ z := by
  have hx := x.dpos; have hy := y.dpos; have hz := z.dpos
  show x.n * z.d ≤ z.n * x.d
  nlinarith [mul_le_mul_of_nonneg_right h₁ (le_of_lt hz),
             mul_le_mul_of_nonneg_right h₂ (le_of_lt hx)]

theorem qle_total (x y : Q) : x ≤ y ∨ y ≤ x := by
  rcases le_total (x.n * y.d) (y.n * x.d) with h | h
  · exact Or.inl h
  · exact Or.inr h

theorem qle_of_not_qle {x y : Q} (h : ¬ x ≤ y) : y ≤ x :=
  (qle_total x y).resolve_left h

theorem le_qmax_right (x y : Q) : y ≤ qmax x y := by
  unfold qmax; split
  · exact qle_refl y
  · exact qle_of_not_qle (by assumption)

theorem qmax_le {x y z : Q} (hx : x ≤ z) (hy : y ≤ z) : qmax x y ≤ z := by
  unfold qmax; split
  · exact hy
  · exact hx

theorem qmin_le_right (x y : Q) : qmin x y ≤ y := by
  unfold qmin; split
  · assumption
  · exact qle_refl y

theorem le_qmin {x y z : Q} (hx : z ≤ x) (hy : z ≤ y) : z ≤ qmin x y := by
  unfold qmin; split
  · exact hx
  · exact hy

end Q

/-! ### JavaScript numeric primitives from the source -/

/-- `Math.round`: round half towards positive infinity. -/
def jsRound (x : Q) : ℤ := Q.floor (x + (0.5 : Q))

/-- The JavaScript remainder operator `a % b` (sign of the dividend). -/
def jsMod (a b : Q) : Q := a - b * Q.ofInt (Q.trunc (a / b))

/-- `clamp` from the source: `Math.min(Math.max(value, min), max)`. -/
def clamp (v lo hi : Q) : Q := Q.qmin (Q.qmax v lo) hi

/-- `wrapHue` from the source (also culori's `normalizeHue`):
`((hue % 360) + 360) % 360`. -/
def wrapHue (h : Q) : Q := jsMod (jsMod h 360 + 360) 360

/-- The clamp output lies between its (ordered) bounds. -/
theorem clamp_bounds {lo hi : Q} (v : Q) (h : lo ≤ hi) :
    lo ≤ clamp v lo hi ∧ clamp v lo hi ≤ hi := by
  constructor
  · exact Q.le_qmin (Q.le_qmax_right v lo) h
  · exact Q.qmin_le_right _ _

example : jsRound (2.5 : Q) = 3 := by decide
example : jsRound (-0.5 : Q) = 0 := by decide
example : Q.qeq (wrapHue (-30 : Q)) (330 : Q) := by decide
example : Q.qeq (clamp (0.9 : Q) (0.25 : Q) (0.85 : Q)) (0.85 : Q) := by decide

/-! ### Color representations and conversions (the culori subset the
engine uses).  The hex parser accepts `#`-optional 3- or 6-digit hex
strings, the only color syntax the engine ever feeds it (4/8-digit alpha
forms, named colors and functional CSS notations never occur). -/

structure Rgb where
  r : Q
  g : Q
  b : Q

/-- culori's HSL record: hue is absent (`undefined`) for pure greys. -/
structure Hsl where
  h : Option Q
  s : Q
  l : Q

/-- culori `parse` on hex color strings: optional `#`, then 6 digits
(`RRGGBB`) or 3 digits (`RGB`, each duplicated); channels scaled to `[0,1]`. -/
def parseColor (s : JStr) : Option Rgb :=
  let t := if s.head? = some '#' then s.tail else s
  if t.all isHexDigit then
    match t with
    | [r₁, r₂, g₁, g₂, b₁, b₂] =>
        some ⟨Q.ofFrac (16 * hexVal r₁ + hexVal r₂) 255,
              Q.ofFrac (16 * hexVal g₁ + hexVal g₂) 255,
              Q.ofFrac (16 * hexVal b₁ + hexVal b₂) 255⟩
    | [r₁, g₁, b₁] =>
        some ⟨Q.ofFrac (17 * hexVal r₁) 255,
              Q.ofFrac (17 * hexVal g₁) 255,
              Q.ofFrac (17 * hexVal b₁) 255⟩
    | _ => none
  else none

/-- culori `rgb` → `hsl` conversion (`convertRgbToHsl`). -/
def rgbToHsl (c : Rgb) : Hsl :=
  let M := Q.qmax c.r (Q.qmax c.g c.b)
  let m := Q.qmin c.r (Q.qmin c.g c.b)
  let s := if Q.qeq M m then 0 else (M - m) / (1 - Q.qabs (M + m - 1))
  let l := (M + m) / 2
  let h : Option Q :=
    if Q.qeq M m then none
    else some (60 * (if Q.qeq M c.r then (c.g - c.b) / (M - m) + (if c.g < c.b then 6 else 0)
                     else if Q.qeq M c.g then 2 + (c.b - c.r) / (M - m)
                     else 4 + (c.r - c.g) / (M - m)))
  ⟨h, s, l⟩

/-- culori `hsl` → `rgb` conversion (standard HSL→sRGB, sector form):
an undefined hue is treated as 0. -/
def hslToRgb (h? : Option Q) (s l : Q) : Rgb :=
  let h := wrapHue (h?.getD 0)
  let m1 := l + s * (if l < (0.5 : Q) then l else 1 - l)
  let m2 := m1 - (m1 - l) * 2 * Q.qabs (jsMod (h / 60) 2 - 1)
  let lo := 2 * l - m1
  match Q.floor (h / 60) with
  | 0 => ⟨m1, m2, lo⟩
  | 1 => ⟨m2, m1, lo⟩
  | 2 => ⟨lo, m1, m2⟩
  | 3 => ⟨lo, m2, m1⟩
  | 4 => ⟨m2, lo, m1⟩
  | 5 => ⟨m1, lo, m2⟩
  | _ => ⟨lo, lo, lo⟩

/-- culori `formatHex` channel rounding:
`Math.max(0, Math.min(Math.round(v * 255), 255))`. -/
def rnd255 (v : Q) : ℕ := (min (255 : ℤ) (max 0 (jsRound (v * 255)))).toNat

/-- Two lowercase hex digits of a byte. -/
def byteHex (b : ℕ) : JStr := [hexDigitChar (b / 16), hexDigitChar (b % 16)]

/-- culori `formatHex` on an RGB color: `#` plus six lowercase hex digits. -/
def serializeHex (c : Rgb) : JStr :=
  '#' :: (byteHex (rnd255 c.r) ++ byteHex (rnd255 c.g) ++ byteHex (rnd255 c.b))

/-- `formatHex({ mode: 'hsl', h, s, l })` from the source. -/
def formatHexHsl (h : Option Q) (s l : Q) : JStr :=
  serializeHex (hslToRgb h s l)

/-- `toHsl(parse(hex))` as used throughout the source. -/
def toHsl (s : JStr) : Option Hsl := (parseColor s).map rgbToHsl

/-! ### The engine.  `σ : ℕ → Q` is the ambient `Math.random` stream
(each draw lies in `[0,1)`); `k` is the cursor of the next unconsumed
draw, threaded explicitly through the stateful calls. -/

/-- `randomPleasantHex` from the source: hue `random()*360`, saturation
`0.45 + random()*0.35`, lightness `0.4 + random()*0.2`, formatted as hex.
Consumes three draws. -/
def randomPleasantHex (σ : ℕ → Q) (k : ℕ) : JStr :=
  formatHexHsl (some (σ k * 360)) ((0.45 : Q) + σ (k+1) * (0.35 : Q))
    ((0.4 : Q) + σ (k+2) * (0.2 : Q))

/-- `ensureHsl` from the source: parse to HSL; on parse failure or an
undefined hue, silently substitute a freshly drawn pleasant color's HSL.
Returns the (possibly substituted) HSL and the advanced draw cursor. -/
def ensureHsl (hex : JStr) (σ : ℕ → Q) (k : ℕ) : Option Hsl × ℕ :=
  match toHsl hex with
  | some hsl => if hsl.h.isSome then (some hsl, k)
                else (toHsl (randomPleasantHex σ k), k + 3)
  | none => (toHsl (randomPleasantHex σ k), k + 3)

/-- `buildPaletteFromHues` from the source (later revision): the shared
hue-offset → color distribution step. -/
def buildPaletteFromHues (baseHex : JStr) (hues : List Q) (adjustLightness : Q)
    (σ : ℕ → Q) (k : ℕ) : List JStr :=
  let base := (ensureHsl baseHex σ k).1
  let baseHue := match base with | some b => b.h.getD 0 | none => 0
  let baseSaturation := clamp (match base with | some b => b.s | none => (0.6 : Q)) (0.4 : Q) (0.9 : Q)
  let baseLightness := clamp (match base with | some b => b.l | none => (0.5 : Q)) (0.25 : Q) (0.75 : Q)
  let lightnessRange : Q := 0.4
  let minLightness := Q.qmax (0.25 : Q) (baseLightness - lightnessRange / 2)
  let maxLightness := Q.qmin (0.85 : Q) (baseLightness + lightnessRange / 2)
  hues.enum.map (fun p =>
    let index := p.1
    let offset := p.2
    let h := wrapHue (baseHue + offset)
    let s := clamp (baseSaturation + ((index : Q) - (hues.length : Q) / 2) * (0.05 : Q)) (0.35 : Q) (0.95 : Q)
    let lightnessPosition := if hues.length > 1 then (index : Q) / ((hues.length : Q) - 1) else (0.5 : Q)
    let l := if Q.qeq adjustLightness 0 then
               minLightness + (maxLightness - minLightness) * lightnessPosition
             else
               clamp (minLightness + (maxLightness - minLightness) * lightnessPosition
                        + adjustLightness * ((index : Q) - (hues.length : Q) / 2))
                 (0.25 : Q) (0.85 : Q)
    formatHexHsl (some h) s l)

/-- The hue-offset list of the `complementary` case: alternate 0°/180°. -/
def complementaryHues (len : ℤ) : List Q :=
  (List.range len.toNat).map (fun i => if i % 2 = 0 then (0 : Q) else 180)

/-- The hue-offset list of the `analogous` case: `-40 + 20·i`. -/
def analogousHues (len : ℤ) : List Q :=
  (List.range len.toNat).map (fun i : ℕ => -40 + 20 * (i : Q))

/-- Hue offsets built from a base cycle and a variation table
(`baseHues[i % n] + (variations[Math.floor(i / n)] || 0)`). -/
def cycleHues (baseHues variations : List Q) (len : ℤ) : List Q :=
  (List.range len.toNat).map (fun i =>
    baseHues.getD (i % baseHues.length) 0 + variations.getD (i / baseHues.length) 0)

/-- `generatePaletteByMode` from the source (later revision).  `mode` is
the `PaletteMode` string tag; the `switch` default makes every
unrecognized tag behave like `'random'`.  `length` is an integer
(`Array.from({ length })` with a non-positive length yields `[]`). -/
def generatePaletteByMode (baseHex : JStr) (mode : String) (len : ℤ)
    (σ : ℕ → Q) (k : ℕ) : List JStr :=
  let base := normalizeHex baseHex
  match mode with
  | "complementary" =>
      -- the source computes `baseHue` from `ensureHsl(base)` here (unused
      -- afterwards), which may consume three draws before the build step
      let bk := ensureHsl base σ k
      buildPaletteFromHues base (complementaryHues len) (0.06 : Q) σ bk.2
  | "analogous" =>
      buildPaletteFromHues base (analogousHues len) (0.04 : Q) σ k
  | "triadic" =>
      buildPaletteFromHues base (cycleHues [0, 120, 240] [0, 20, -20, 40, -40] len) (0.05 : Q) σ k
  | "tetradic" =>
      buildPaletteFromHues base (cycleHues [0, 90, 180, 270] [0, 15, -15, 30, -30, 45] len) (0.03 : Q) σ k
  | "split" =>
      buildPaletteFromHues base (cycleHues [0, 150, 210] [0, 20, -20, 40, -40, 10, -10] len) (0.05 : Q) σ k
  | "gradient" =>
      List.replicate len.toNat base
  | _ =>
      (List.range len.toNat).map (fun i => randomPleasantHex σ (k + 3 * i))

/-- `getReadableTextColor` from the source: relative luminance against
the `0.55` threshold; unparseable input falls to the dark neutral. -/
def getReadableTextColor (hex : JStr) : JStr :=
  match parseColor hex with
  | none => "#0f172a".data
  | some c =>
      let luminance := (0.2126 : Q) * c.r + (0.7152 : Q) * c.g + (0.0722 : Q) * c.b
      if luminance > (0.55 : Q) then "#0f172a".data else "#f8fafc".data

/-- A concrete random stream for witnesses (all draws 0). -/
def zeroRng : ℕ → Q := fun _ => 0

example : getReadableTextColor "#FFFFFF".data = "#0f172a".data := by decide
example : getReadableTextColor "#000000".data = "#f8fafc".data := by decide
example : (generatePaletteByMode "#FF0000".data "complementary" 4 zeroRng 0).length = 4 := by
  decide

/-! ### OKLCH pipeline (culori `oklch` conversions and `interpolate`).

The conversions involve irrational operations (`Math.cbrt`, `Math.pow`,
`Math.sqrt`, `Math.atan2`, `Math.cos`, `Math.sin`).  They are realised
here as rational approximations accurate to far better than the half-byte
tolerance (`1/510`) under which `formatHex` rounds a channel, mirroring
double-precision evaluation: every value is truncated to 30 decimal
digits between steps so evaluation stays cheap. -/

/-- Truncate a fraction to 25 decimal digits (the working precision). -/
def approx (x : Q) : Q := Q.ofFrac (Q.floor (x * Q.ofInt (10 ^ 25))) (10 ^ 25)

/-- Exact natural power. -/
def qpow (x : Q) : ℕ → Q
  | 0 => 1
  | m + 1 => x * qpow x m

/-- One Newton step for the `r`-th root of `a`. -/
def nthRootStep (r : ℕ) (a y : Q) : Q :=
  approx ((((r : Q) - 1) * y + a / qpow y (r - 1)) / (r : Q))

/-- Integer seed for the `r`-th root of `a ∈ [1, 10^r)`: the smallest
`s ∈ [1,10]` with `a ≤ s^r`, so the seed is within a factor 2 of the root
and 18 Newton steps converge far beyond working precision. -/
def rootSeed (r : ℕ) (a : Q) : Q :=
  ((((List.range 10).find? (fun s => decide (a ≤ qpow ((s + 1 : ℕ) : Q) r))).getD 9) + 1 : ℕ)

/-- Newton iteration for the `r`-th root of `a ∈ [1, 10^r)`. -/
def newtonRoot (r : ℕ) (a : Q) : Q :=
  Nat.rec (motive := fun _ => Q) (rootSeed r a) (fun _ y => nthRootStep r a y) 18

/-- Rescale `a` into `[1, 10^r)` by powers of `10^r` (dividing the root
by 10 per scaling), then iterate Newton. -/
def rootScale (r : ℕ) : ℕ → Q → Q
  | 0, a => newtonRoot r a
  | fuel + 1, a => if a < 1 then rootScale r fuel (a * qpow 10 r) / 10 else newtonRoot r a

/-- The `r`-th root of a non-negative `a`, accurate to well beyond the
half-byte tolerance; non-positive inputs map to 0. -/
def nthRoot (r : ℕ) (a : Q) : Q :=
  if a ≤ 0 then 0 else rootScale r 20 (approx a)

/-- `Math.sqrt` (non-negative inputs). -/
def qsqrt (a : Q) : Q := nthRoot 2 a

/-- `Math.cbrt` (the engine only takes cube roots of non-negative lms
channels). -/
def qcbrt (a : Q) : Q := nthRoot 3 a

/-- 40-digit rational approximation of π. -/
def piQ : Q := Q.ofFrac 31415926535897932384626433832795028841972 (10 ^ 40)

/-- `Math.atan` via 4 angle-halving reductions and a 13-term Taylor sum. -/
def qatan (t : Q) : Q :=
  let r1 := approx (t / (1 + qsqrt (1 + t * t)))
  let r2 := approx (r1 / (1 + qsqrt (1 + r1 * r1)))
  let r3 := approx (r2 / (1 + qsqrt (1 + r2 * r2)))
  let r := approx (r3 / (1 + qsqrt (1 + r3 * r3)))
  let r2sq := approx (r * r)
  let series := Nat.rec (motive := fun _ => Q × Q) (r, (1 : Q))
    (fun j acc =>
      let term := approx (acc.2 * r2sq)
      let j' := (j : Q)
      (acc.1 + (if (j + 1) % 2 = 0 then term * r / (2 * j' + 3) else -(term * r) / (2 * j' + 3)),
       term))
    12
  16 * series.1

/-- `Math.atan2(y, x)` in degrees (`· 180 / π`), as culori computes the
OKLCH hue. -/
def atan2Deg (y x : Q) : Q :=
  let deg := fun (rad : Q) => approx (rad * 180 / piQ)
  if (0 : Q) < x then deg (qatan (y / x))
  else if x < 0 then
    (if (0 : Q) ≤ y then deg (qatan (y / x)) + 180 else deg (qatan (y / x)) - 180)
  else
    (if (0 : Q) < y then 90 else if y < 0 then -90 else 0)

/-- Taylor cosine (27 terms), argument in radians within `[0, 2π)`. -/
def cosTaylor (x : Q) : Q :=
  let xsq := approx (x * x)
  (Nat.rec (motive := fun _ => Q × Q) ((1 : Q), (1 : Q))
    (fun j acc =>
      let term := approx (acc.2 * xsq / ((2 * (j : Q) + 1) * (2 * (j : Q) + 2)))
      ((if (j + 1) % 2 = 0 then acc.1 + term else acc.1 - term), term))
    26).1

/-- `Math.cos` of an angle given in degrees. -/
def cosDeg (d : Q) : Q := cosTaylor (approx (wrapHue d * piQ / 180))

/-- `Math.sin` of an angle given in degrees: `cos(90° − d)` via the
degree-level shift (kept in `[0,360)` by `wrapHue`). -/
def sinDeg (d : Q) : Q := cosDeg (90 - d)

/-- sRGB gamma decode (culori `convertRgbToLrgb`, per channel):
`|c| ≤ 0.04045 ? c / 12.92 : sign(c)·((|c| + 0.055) / 1.055)^2.4`,
with `x^2.4 = (x^12)^(1/5)`. -/
def lrgbOfRgbCh (c : Q) : Q :=
  if Q.qabs c ≤ (0.04045 : Q) then c / (12.92 : Q)
  else
    let base := approx ((Q.qabs c + (0.055 : Q)) / (1.055 : Q))
    let p := nthRoot 5 (qpow base 12)
    if c < 0 then -p else p

/-- sRGB gamma encode (culori `convertLrgbToRgb`, per channel):
`|c| > 0.0031308 ? sign(c)·(1.055·|c|^(1/2.4) − 0.055) : 12.92·c`,
with `x^(1/2.4) = (x^5)^(1/12)`. -/
def rgbOfLrgbCh (c : Q) : Q :=
  if (0.0031308 : Q) < Q.qabs c then
    let p := nthRoot 12 (qpow (approx (Q.qabs c)) 5)
    let v := (1.055 : Q) * p - (0.055 : Q)
    if c < 0 then -v else v
  else c * (12.92 : Q)

structure Oklab where
  l : Q
  a : Q
  b : Q

/-- culori `convertLrgbToOklab` (Ottosson's reference matrices). -/
def lrgbToOklab (c : Rgb) : Oklab :=
  let r := lrgbOfRgbCh c.r
  let g := lrgbOfRgbCh c.g
  let b := lrgbOfRgbCh c.b
  let L := qcbrt (approx ((0.4122214708 : Q) * r + (0.5363325363 : Q) * g + (0.0514459929 : Q) * b))
  let M := qcbrt (approx ((0.2119034982 : Q) * r + (0.6806995451 : Q) * g + (0.1073969566 : Q) * b))
  let S := qcbrt (approx ((0.0883024619 : Q) * r + (0.2817188376 : Q) * g + (0.6299787005 : Q) * b))
  ⟨approx ((0.2104542553 : Q) * L + (0.7936177850 : Q) * M - (0.0040720468 : Q) * S),
   approx ((1.9779984951 : Q) * L - (2.4285922050 : Q) * M + (0.4505937099 : Q) * S),
   approx ((0.0259040371 : Q) * L + (0.7827717662 : Q) * M - (0.8086757660 : Q) * S)⟩

/-- culori `convertOklabToLrgb` followed by gamma encode (inverse
Ottosson matrices), producing gamma-encoded sRGB channels. -/
def rgbOfOklab (o : Oklab) : Rgb :=
  let l' := approx (o.l + (0.3963377774 : Q) * o.a + (0.2158037573 : Q) * o.b)
  let m' := approx (o.l - (0.1055613458 : Q) * o.a - (0.0638541728 : Q) * o.b)
  let s' := approx (o.l - (0.0894841775 : Q) * o.a - (1.2914855480 : Q) * o.b)
  let L := qpow l' 3
  let M := qpow m' 3
  let S := qpow s' 3
  let r := approx ((4.0767416621 : Q) * L - (3.3077115913 : Q) * M + (0.2309699292 : Q) * S)
  let g := approx ((-1.2684380046 : Q) * L + (2.6097574011 : Q) * M - (0.3413193965 : Q) * S)
  let b := approx ((-0.0041960863 : Q) * L - (0.7034186147 : Q) * M + (1.7076147010 : Q) * S)
  ⟨rgbOfLrgbCh r, rgbOfLrgbCh g, rgbOfLrgbCh b⟩

structure Oklch where
  l : Q
  c : Q
  h : Option Q

/-- culori `convertLabToLch` on OKLab: chroma `√(a²+b²)`; the hue is
defined (`atan2(b,a)` in degrees, wrapped) exactly when the chroma is
non-zero. -/
def oklabToOklch (o : Oklab) : Oklch :=
  let csq := o.a * o.a + o.b * o.b
  ⟨o.l, qsqrt csq,
   if Q.qeq csq 0 then none else some (wrapHue (atan2Deg o.b o.a))⟩

/-- culori `convertLchToLab` on OKLCH: `a = c·cos(h°)`, `b = c·sin(h°)`
(an undefined hue counts as 0). -/
def oklchToOklab (o : Oklch) : Oklab :=
  let h := o.h.getD 0
  ⟨o.l, o.c * cosDeg h, o.c * sinDeg h⟩

/-- Parse → OKLCH, as culori's interpolator prepares each input color. -/
def toOklchColor (c : Rgb) : Oklch := oklabToOklch (lrgbToOklab c)

/-- culori's shorter-path hue fixup for a pair of hues: the second hue is
shifted by a multiple of 360° to lie within 180° of the first. -/
def hueFix (h0 h1 : Q) : Q :=
  let d := h1 - h0
  if Q.qabs d ≤ 180 then d else (if d < 0 then d + 360 else d - 360)

/-- culori `interpolate([start, end], { mode: 'oklch' })` evaluated at
`t ∈ [0,1]`: linear in `l` and `c`, linear in hue after the shorter-path
fixup.  (When one endpoint's hue is undefined the defined one is used;
both undefined counts as hue 0 — greys, unreached by the claims.) -/
def interpOklch (c1 c2 : Oklch) (t : Q) : Oklch :=
  let h0 := c1.h.getD (c2.h.getD 0)
  let h1 := c2.h.getD h0
  ⟨c1.l + (c2.l - c1.l) * t,
   c1.c + (c2.c - c1.c) * t,
   some (h0 + hueFix h0 h1 * t)⟩

/-- `generateGradientPalette` from the source: if either endpoint fails
to parse, `steps` independent pleasant-random colors; otherwise `steps`
samples of the OKLCH interpolation at `t = i / max(steps − 1, 1)`,
formatted as hex. -/
def generateGradientPalette (startHex endHex : JStr) (steps : ℤ)
    (σ : ℕ → Q) (k : ℕ) : List JStr :=
  match parseColor startHex, parseColor endHex with
  | some sc, some ec =>
      let c1 := toOklchColor sc
      let c2 := toOklchColor ec
      let mx : ℤ := max (steps - 1) 1
      (List.range steps.toNat).map (fun i : ℕ =>
        serializeHex (rgbOfOklab (oklchToOklab (interpOklch c1 c2 (Q.ofFrac (i : ℤ) mx)))))
  | _, _ =>
      (List.range steps.toNat).map (fun i => randomPleasantHex σ (k + 3 * i))

/-- Decidable hue test: the parsed color's HSL hue is defined and equals
`v` (as a value). -/
def hueIs (s : JStr) (v : Q) : Bool :=
  match (toHsl s).bind Hsl.h with
  | some hq => decide (Q.qeq hq v)
  | none => false

/-! ### Helper lemmas: hex characters, trimming, normalization -/

theorem hexChar_facts : ∀ c ∈ "0123456789abcdefABCDEF".data,
    isHexDigit (jsToUpper c) = true ∧ isUpperHexDigit (jsToUpper c) = true ∧
    jsToUpper (jsToUpper c) = jsToUpper c ∧ isJsSpace c = false ∧
    isJsSpace (jsToUpper c) = false ∧ jsToUpper c ≠ '#' ∧ c ≠ '#' := by decide

theorem isHexDigit_mem {c : Char} (h : isHexDigit c = true) :
    c ∈ "0123456789abcdefABCDEF".data := of_decide_eq_true h

theorem hex_not_space {c : Char} (h : isHexDigit c = true) : isJsSpace c = false :=
  (hexChar_facts c (isHexDigit_mem h)).2.2.2.1

theorem hex_ne_hash {c : Char} (h : isHexDigit c = true) : c ≠ '#' :=
  (hexChar_facts c (isHexDigit_mem h)).2.2.2.2.2.2

theorem jsTrim_eq_self {l : JStr} (h : ∀ c ∈ l, isJsSpace c = false) : jsTrim l = l := by
  unfold jsTrim
  have h1 : l.dropWhile isJsSpace = l := by
    cases l with
    | nil => rfl
    | cons a t => simp [List.dropWhile_cons, h a (List.mem_cons_self a t)]
  rw [h1]
  have h2 : l.reverse.dropWhile isJsSpace = l.reverse := by
    cases hr : l.reverse with
    | nil => rfl
    | cons a t =>
        have ha : a ∈ l := by
          rw [← List.mem_reverse, hr]; exact List.mem_cons_self a t
        simp [List.dropWhile_cons, h a ha]
  rw [h2, List.reverse_reverse]

theorem replaceFirstHash_eq_self {l : JStr} (h : '#' ∉ l) : replaceFirstHash l = l := by
  induction l with
  | nil => rfl
  | cons a t ih =>
      unfold replaceFirstHash
      rw [if_neg, ih]
      · intro hm; exact h (List.mem_cons_of_mem a hm)
      · intro ha; exact h (ha ▸ List.mem_cons_self a t)

/-- Structure of a string accepted by `isValidHex`: stripping the
optional `#` from its trimmed form leaves exactly six hex digits, and
that is also what `replaceFirstHash` leaves. -/
theorem isValidHex_struct {s : JStr} (h : isValidHex s = true) :
    ∃ ds : JStr, ds.length = 6 ∧ (∀ c ∈ ds, isHexDigit c = true) ∧
      replaceFirstHash (jsTrim s) = ds := by
  unfold isValidHex at h
  cases ht : jsTrim s with
  | nil => rw [ht] at h; simp at h
  | cons a t =>
      rw [ht] at h
      by_cases ha : a = '#'
      · subst ha
        simp only [List.head?_cons, if_pos rfl, List.tail_cons, Bool.and_eq_true,
          decide_eq_true_eq, List.all_eq_true] at h
        exact ⟨t, h.1, h.2, by unfold replaceFirstHash; rw [if_pos rfl]⟩
      · simp only [List.head?_cons, List.tail_cons, Bool.and_eq_true,
          decide_eq_true_eq, List.all_eq_true] at h
        rw [if_neg (by simp [ha])] at h
        refine ⟨a :: t, h.1, h.2, replaceFirstHash_eq_self ?_⟩
        intro hm
        exact hex_ne_hash (h.2 '#' hm) rfl

/-- `isValidHex` holds for `#` followed by six hex digits. -/
theorem isValidHex_hash6 {ds : JStr} (h6 : ds.length = 6)
    (hall : ∀ c ∈ ds, isHexDigit c = true) : isValidHex ('#' :: ds) = true := by
  have htrim : jsTrim ('#' :: ds) = '#' :: ds := by
    apply jsTrim_eq_self
    intro c hc
    rcases List.mem_cons.mp hc with rfl | hc'
    · decide
    · exact hex_not_space (hall c hc')
  unfold isValidHex
  rw [htrim]
  simp only [List.head?_cons, if_pos rfl, List.tail_cons, Bool.and_eq_true,
    decide_eq_true_eq, List.all_eq_true]
  exact ⟨h6, hall⟩

/-- On a valid input, `normalizeHex` takes the 6-digit path and
upper-cases the digits. -/
theorem normalizeHex_struct {s : JStr} (h : isValidHex s = true) :
    ∃ ds : JStr, ds.length = 6 ∧ (∀ c ∈ ds, isHexDigit c = true) ∧
      normalizeHex s = '#' :: ds.map jsToUpper := by
  obtain ⟨ds, h6, hall, hrep⟩ := isValidHex_struct h
  refine ⟨ds, h6, hall, ?_⟩
  unfold normalizeHex
  rw [hrep, if_neg (by omega : ¬ ds.length = 3)]
  have : ds.take 6 = ds := List.take_of_length_le (by omega)
  rw [this, List.map_cons]
  congr 1

/-- `#` followed by six upper-cased hex digits is valid, canonical, and a
fixed point of `normalizeHex`. -/
theorem canonical_hash6 {ds : JStr} (h6 : ds.length = 6)
    (hall : ∀ c ∈ ds, isHexDigit c = true) :
    isValidHex ('#' :: ds.map jsToUpper) = true ∧
    isCanonicalHex ('#' :: ds.map jsToUpper) = true ∧
    normalizeHex ('#' :: ds.map jsToUpper) = '#' :: ds.map jsToUpper := by
  have hmem : ∀ c ∈ ds.map jsToUpper, isHexDigit c = true := by
    intro c hc
    obtain ⟨a, ha, rfl⟩ := List.mem_map.mp hc
    exact (hexChar_facts a (isHexDigit_mem (hall a ha))).1
  have hlen : (ds.map jsToUpper).length = 6 := by rw [List.length_map, h6]
  refine ⟨isValidHex_hash6 hlen hmem, ?_, ?_⟩
  · unfold isCanonicalHex
    simp only [Bool.and_eq_true, decide_eq_true_eq, List.all_eq_true]
    refine ⟨hlen, ?_⟩
    intro c hc
    obtain ⟨a, ha, rfl⟩ := List.mem_map.mp hc
    exact (hexChar_facts a (isHexDigit_mem (hall a ha))).2.1
  · have htrim : jsTrim ('#' :: ds.map jsToUpper) = '#' :: ds.map jsToUpper := by
      apply jsTrim_eq_self
      intro c hc
      rcases List.mem_cons.mp hc with rfl | hc'
      · decide
      · exact hex_not_space (hmem c hc')
    unfold normalizeHex
    rw [htrim]
    have hrep : replaceFirstHash ('#' :: ds.map jsToUpper) = ds.map jsToUpper := by
      unfold replaceFirstHash; rw [if_pos rfl]
    rw [hrep, if_neg (by omega : ¬ (ds.map jsToUpper).length = 3),
      List.take_of_length_le (by omega), List.map_cons]
    have hfix : (ds.map jsToUpper).map jsToUpper = ds.map jsToUpper := by
      rw [List.map_map]
      apply List.map_congr_left
      intro a ha
      exact (hexChar_facts a (isHexDigit_mem (hall a ha))).2.2.1
    rw [hfix]
    congr 1

/-- `normalizeHex` maps valid inputs to valid outputs. -/
theorem isValidHex_normalizeHex {s : JStr} (h : isValidHex s = true) :
    isValidHex (normalizeHex s) = true := by
  obtain ⟨ds, h6, hall, hn⟩ := normalizeHex_struct h
  rw [hn]
  exact (canonical_hash6 h6 hall).1

/-- `normalizeHex` outputs the canonical `^#[0-9A-F]{6}$` shape on valid
inputs. -/
theorem isCanonicalHex_normalizeHex {s : JStr} (h : isValidHex s = true) :
    isCanonicalHex (normalizeHex s) = true := by
  obtain ⟨ds, h6, hall, hn⟩ := normalizeHex_struct h
  rw [hn]
  exact (canonical_hash6 h6 hall).2.1

/-- `normalizeHex` is idempotent on valid inputs. -/
theorem normalizeHex_idem {s : JStr} (h : isValidHex s = true) :
    normalizeHex (normalizeHex s) = normalizeHex s := by
  obtain ⟨ds, h6, hall, hn⟩ := normalizeHex_struct h
  rw [hn]
  exact (canonical_hash6 h6 hall).2.2

/-- Every `hexDigitChar` output is a hex digit. -/
theorem hexDigitChar_hex (n : ℕ) : isHexDigit (hexDigitChar n) = true := by
  unfold hexDigitChar
  by_cases h : n < 16
  · interval_cases n <;> decide
  · rw [List.getD_eq_default]
    · decide
    · have h16 : ("0123456789abcdef".data).length = 16 := by decide
      omega

/-- `formatHex` output is always a valid hex string. -/
theorem isValidHex_serializeHex (c : Rgb) : isValidHex (serializeHex c) = true := by
  unfold serializeHex byteHex
  apply isValidHex_hash6
  · rfl
  · intro x hx
    simp only [List.cons_append, List.nil_append, List.mem_cons, List.not_mem_nil,
      or_false] at hx
    rcases hx with rfl | rfl | rfl | rfl | rfl | rfl <;> exact hexDigitChar_hex _

/-! ### Palette-level helper lemmas -/

theorem isValidHex_formatHexHsl (h? : Option Q) (s l : Q) :
    isValidHex (formatHexHsl h? s l) = true :=
  isValidHex_serializeHex _

theorem buildPaletteFromHues_length (baseHex : JStr) (hues : List Q) (adjust : Q)
    (σ : ℕ → Q) (k : ℕ) :
    (buildPaletteFromHues baseHex hues adjust σ k).length = hues.length := by
  simp [buildPaletteFromHues, List.enum_length]

theorem buildPaletteFromHues_mem_shape {baseHex : JStr} {hues : List Q} {adjust : Q}
    {σ : ℕ → Q} {k : ℕ} {s : JStr}
    (hs : s ∈ buildPaletteFromHues baseHex hues adjust σ k) :
    ∃ hq sq lq, s = formatHexHsl (some hq) sq lq := by
  simp only [buildPaletteFromHues, List.mem_map] at hs
  obtain ⟨p, hp, rfl⟩ := hs
  exact ⟨_, _, _, rfl⟩

/-- Membership in the shared distribution step, with the saturation and
lightness bands it enforces (the engine always calls it with a non-zero
`adjustLightness`, so the lightness goes through the clamp). -/
theorem buildPaletteFromHues_mem_bounds {baseHex : JStr} {hues : List Q} {adjust : Q}
    {σ : ℕ → Q} {k : ℕ} {s : JStr} (ha : ¬ Q.qeq adjust 0)
    (hs : s ∈ buildPaletteFromHues baseHex hues adjust σ k) :
    ∃ hq sq lq, s = formatHexHsl (some hq) sq lq ∧
      (0.35 : Q) ≤ sq ∧ sq ≤ (0.95 : Q) ∧ (0.25 : Q) ≤ lq ∧ lq ≤ (0.85 : Q) := by
  simp only [buildPaletteFromHues, List.mem_map] at hs
  obtain ⟨p, hp, rfl⟩ := hs
  rw [if_neg ha]
  refine ⟨_, _, _, rfl, ?_, ?_, ?_, ?_⟩
  · exact (clamp_bounds _ (by decide)).1
  · exact (clamp_bounds _ (by decide)).2
  · exact (clamp_bounds _ (by decide)).1
  · exact (clamp_bounds _ (by decide)).2

theorem complementaryHues_length (len : ℤ) :
    (complementaryHues len).length = len.toNat := by
  simp [complementaryHues]

theorem analogousHues_length (len : ℤ) :
    (analogousHues len).length = len.toNat := by
  rw [analogousHues, List.length_map, List.length_range]

theorem cycleHues_length (baseHues variations : List Q) (len : ℤ) :
    (cycleHues baseHues variations len).length = len.toNat := by
  rw [cycleHues, List.length_map, List.length_range]

/-! ### Claims -/

/-- C1 (as frozen) is false: the claim asserts every returned string is a
valid hex color for every mode and `length ∈ [1,12]` with no condition on
the base; in `gradient` mode the entries are `normalizeHex(baseHex)`
verbatim, so an invalid base yields invalid entries.  At base `""`,
mode `gradient`, length 1 the output is `["#"]`, which fails `isValidHex`. -/
theorem c1_counterexample :
    generatePaletteByMode "".data "gradient" 1 zeroRng 0 = ["#".data] ∧
    (generatePaletteByMode "".data "gradient" 1 zeroRng 0).all isValidHex = false := by
  exact ⟨by decide, by decide⟩

/-- C1 amended: for every mode tag, base, stream and `length ∈ [1,12]`,
`generatePaletteByMode` returns exactly `length` strings, and every
returned string is a valid hex color provided the base passes
`isValidHex` (hue-offset and random modes produce valid hex for any base;
only `gradient` echoes the normalized base and needs the proviso). -/
theorem c1_theorem (mode : String) (baseHex : JStr) (len : ℤ) (σ : ℕ → Q) (k : ℕ)
    (h1 : 1 ≤ len) (h2 : len ≤ 12) :
    (generatePaletteByMode baseHex mode len σ k).length = len.toNat ∧
    (isValidHex baseHex = true →
      ∀ s ∈ generatePaletteByMode baseHex mode len σ k, isValidHex s = true) := by
  unfold generatePaletteByMode
  split
  case _ =>
    refine ⟨by rw [buildPaletteFromHues_length, complementaryHues_length], ?_⟩
    intro _ s hs
    obtain ⟨hq, sq, lq, rfl⟩ := buildPaletteFromHues_mem_shape hs
    exact isValidHex_formatHexHsl _ _ _
  case _ =>
    refine ⟨by rw [buildPaletteFromHues_length, analogousHues_length], ?_⟩
    intro _ s hs
    obtain ⟨hq, sq, lq, rfl⟩ := buildPaletteFromHues_mem_shape hs
    exact isValidHex_formatHexHsl _ _ _
  case _ =>
    refine ⟨by rw [buildPaletteFromHues_length, cycleHues_length], ?_⟩
    intro _ s hs
    obtain ⟨hq, sq, lq, rfl⟩ := buildPaletteFromHues_mem_shape hs
    exact isValidHex_formatHexHsl _ _ _
  case _ =>
    refine ⟨by rw [buildPaletteFromHues_length, cycleHues_length], ?_⟩
    intro _ s hs
    obtain ⟨hq, sq, lq, rfl⟩ := buildPaletteFromHues_mem_shape hs
    exact isValidHex_formatHexHsl _ _ _
  case _ =>
    refine ⟨by rw [buildPaletteFromHues_length, cycleHues_length], ?_⟩
    intro _ s hs
    obtain ⟨hq, sq, lq, rfl⟩ := buildPaletteFromHues_mem_shape hs
    exact isValidHex_formatHexHsl _ _ _
  case _ =>
    refine ⟨List.length_replicate _ _, ?_⟩
    intro hvalid s hs
    rw [List.eq_of_mem_replicate hs]
    exact isValidHex_normalizeHex hvalid
  case _ =>
    refine ⟨by rw [List.length_map, List.length_range], ?_⟩
    intro _ s hs
    obtain ⟨i, hi, rfl⟩ := List.mem_map.mp hs
    exact isValidHex_formatHexHsl _ _ _

/-- Witness for C1 at mode `complementary`, base `#FF0000`, length 4. -/
theorem c1_witness :
    (generatePaletteByMode "#FF0000".data "complementary" 4 zeroRng 0).length
        = (4 : ℤ).toNat ∧
    isValidHex "#730d0d".data = true := by
  have h := c1_theorem "complementary" "#FF0000".data 4 zeroRng 0 (by decide) (by decide)
  exact ⟨h.1, h.2 (by decide) "#730d0d".data (by decide)⟩

/-- C2: in every hue-offset mode (`complementary`, `analogous`,
`triadic`, `tetradic`, `split`), for every base, stream and length up to
12, each generated color is produced from HSL coordinates whose
saturation lies in `[0.35, 0.95]` and whose lightness lies in
`[0.25, 0.85]` (the bands enforced by the shared distribution step). -/
theorem c2_theorem (mode : String)
    (hm : mode ∈ ["complementary", "analogous", "triadic", "tetradic", "split"])
    (baseHex : JStr) (len : ℤ) (σ : ℕ → Q) (k : ℕ)
    (h1 : 1 ≤ len) (h2 : len ≤ 12) :
    ∀ s ∈ generatePaletteByMode baseHex mode len σ k,
      ∃ hq sq lq, s = formatHexHsl (some hq) sq lq ∧
        (0.35 : Q) ≤ sq ∧ sq ≤ (0.95 : Q) ∧ (0.25 : Q) ≤ lq ∧ lq ≤ (0.85 : Q) := by
  intro s hs
  fin_cases hm
  · exact buildPaletteFromHues_mem_bounds (by decide) hs
  · exact buildPaletteFromHues_mem_bounds (by decide) hs
  · exact buildPaletteFromHues_mem_bounds (by decide) hs
  · exact buildPaletteFromHues_mem_bounds (by decide) hs
  · exact buildPaletteFromHues_mem_bounds (by decide) hs

/-- Witness for C2 at mode `analogous`, base `#2563EB`, length 3: the
first generated color. -/
theorem c2_witness :
    ∃ hq sq lq, "#11787a".data = formatHexHsl (some hq) sq lq ∧
      (0.35 : Q) ≤ sq ∧ sq ≤ (0.95 : Q) ∧ (0.25 : Q) ≤ lq ∧ lq ≤ (0.85 : Q) :=
  c2_theorem "analogous" (by decide) "#2563EB".data 3 zeroRng 0 (by decide) (by decide)
    "#11787a".data (by decide)

set_option maxRecDepth 40000 in
/-- C4: in complementary mode the hue offsets alternate with index
parity (0° even, 180° odd), and for
`generatePaletteByMode("#FF0000", "complementary", 4)` the re-parsed HSL
hues of the four outputs are exactly 0°, 180°, 0°, 180°: indices 0 and 2
agree (difference 0, within any epsilon) and indices 1 and 3 sit exactly
180° away (mod 360). -/
theorem c4_theorem :
    (∀ (len : ℤ) (i : ℕ), i < len.toNat →
        (complementaryHues len)[i]? = some (if i % 2 = 0 then (0 : Q) else 180)) ∧
    hueIs ((generatePaletteByMode "#FF0000".data "complementary" 4 zeroRng 0).getD 0 []) 0 = true ∧
    hueIs ((generatePaletteByMode "#FF0000".data "complementary" 4 zeroRng 0).getD 1 []) 180 = true ∧
    hueIs ((generatePaletteByMode "#FF0000".data "complementary" 4 zeroRng 0).getD 2 []) 0 = true ∧
    hueIs ((generatePaletteByMode "#FF0000".data "complementary" 4 zeroRng 0).getD 3 []) 180 = true := by
  refine ⟨?_, by decide, by decide, by decide, by decide⟩
  intro len i hi
  simp [complementaryHues, List.getElem?_map, List.getElem?_range, hi]

/-- Witness for C4's alternation rule at `len = 4`, `i = 1`. -/
theorem c4_witness : (complementaryHues 4)[1]? = some (180 : Q) := by
  have h := c4_theorem.1 4 1 (by decide)
  simpa using h

set_option maxRecDepth 40000 in
/-- C5 (as frozen) is false: with mode `gradient`,
`generatePaletteByMode` does not delegate to the gradient interpolator —
it returns `length` identical copies of the normalized base (a
one-base-color operation), which differs from an OKLCH interpolation of
two anchors. -/
theorem c5_counterexample :
    generatePaletteByMode "#112233".data "gradient" 3 zeroRng 0 =
      ["#112233".data, "#112233".data, "#112233".data] ∧
    (generatePaletteByMode "#112233".data "gradient" 3 zeroRng 0).getD 1 [] ≠
      (generateGradientPalette "#112233".data "#445566".data 3 zeroRng 0).getD 1 [] := by
  exact ⟨by decide, by decide⟩

/-- C5 amended: mode `gradient` bypasses the hue-offset table but, at
engine level, returns `length` copies of `normalizeHex(baseHex)`; the
two-endpoint OKLCH interpolation is performed by the separate
`generateGradientPalette`, which the application layer calls with its
tracked anchor colors when the mode is `gradient`. -/
theorem c5_theorem (baseHex : JStr) (len : ℤ) (σ : ℕ → Q) (k : ℕ) :
    generatePaletteByMode baseHex "gradient" len σ k =
      List.replicate len.toNat (normalizeHex baseHex) := rfl

/-- C6 (as frozen) is false: the 3-digit branch of `normalizeHex`
duplicates the digits but never upper-cases, so
`normalizeHex("#abc") = "#aabbcc"`, not `"#AABBCC"`. -/
theorem c6_counterexample : normalizeHex "#abc".data ≠ "#AABBCC".data := by decide

/-- C6 amended: `normalizeHex` expands a 3-digit shorthand to 6 digits by
duplicating each digit, preserving its letter case (only the 6-digit path
upper-cases): `normalizeHex("#abc") = "#aabbcc"`, and in general
`#abc ↦ #aabbcc` character-wise for hex digits. -/
theorem c6_theorem :
    normalizeHex "#abc".data = "#aabbcc".data ∧
    ∀ a b c : Char, isHexDigit a = true → isHexDigit b = true → isHexDigit c = true →
      normalizeHex ['#', a, b, c] = ['#', a, a, b, b, c, c] := by
  refine ⟨by decide, ?_⟩
  intro a b c ha hb hc
  have htrim : jsTrim ['#', a, b, c] = ['#', a, b, c] := by
    apply jsTrim_eq_self
    intro x hx
    simp only [List.mem_cons, List.not_mem_nil, or_false] at hx
    rcases hx with rfl | rfl | rfl | rfl
    · decide
    · exact hex_not_space ha
    · exact hex_not_space hb
    · exact hex_not_space hc
  unfold normalizeHex
  rw [htrim]
  rfl

/-- Witness for C6's general duplication rule at `#abc`. -/
theorem c6_witness : normalizeHex ['#', 'a', 'b', 'c'] = ['#', 'a', 'a', 'b', 'b', 'c', 'c'] :=
  c6_theorem.2 'a' 'b' 'c' (by decide) (by decide) (by decide)

/-- C7 (as frozen) is false on the 3-digit-shorthand part of its domain:
`normalizeHex("#abc") = "#aabbcc"`, re-normalizing upper-cases it to
`"#AABBCC"`, so idempotence fails and the output misses `^#[0-9A-F]{6}$`. -/
theorem c7_counterexample :
    normalizeHex (normalizeHex "#abc".data) ≠ normalizeHex "#abc".data ∧
    isCanonicalHex (normalizeHex "#abc".data) = false := by
  exact ⟨by decide, by decide⟩

/-- C7 amended: restricted to the strings accepted by `isValidHex`,
`normalizeHex` is idempotent and its output matches `^#[0-9A-F]{6}$`
(and is again valid); for 3-digit shorthand containing lower-case letters
the output keeps their case and normalization is not idempotent. -/
theorem c7_theorem (s : JStr) (h : isValidHex s = true) :
    normalizeHex (normalizeHex s) = normalizeHex s ∧
    isCanonicalHex (normalizeHex s) = true ∧
    isValidHex (normalizeHex s) = true :=
  ⟨normalizeHex_idem h, isCanonicalHex_normalizeHex h, isValidHex_normalizeHex h⟩

/-- Witness for C7 at the mixed-case input `1a2B3c`. -/
theorem c7_witness :
    normalizeHex (normalizeHex "1a2B3c".data) = normalizeHex "1a2B3c".data ∧
    isCanonicalHex (normalizeHex "1a2B3c".data) = true ∧
    isValidHex (normalizeHex "1a2B3c".data) = true :=
  c7_theorem "1a2B3c".data (by decide)

/-- C8: `getReadableTextColor` compares the luminance
`0.2126·R + 0.7152·G + 0.0722·B` of the parsed color against `0.55`,
returning exactly `#0f172a` above the threshold and `#f8fafc` otherwise;
in particular white maps to the dark neutral and black to the light one. -/
theorem c8_theorem :
    getReadableTextColor "#FFFFFF".data = "#0f172a".data ∧
    getReadableTextColor "#000000".data = "#f8fafc".data ∧
    ∀ (s : JStr) (c : Rgb), parseColor s = some c →
      getReadableTextColor s =
        (if (0.55 : Q) < (0.2126 : Q) * c.r + (0.7152 : Q) * c.g + (0.0722 : Q) * c.b
         then "#0f172a".data else "#f8fafc".data) := by
  refine ⟨by decide, by decide, ?_⟩
  intro s c h
  unfold getReadableTextColor
  rw [h]

/-- Witness for C8's general form at `#FFFFFF`. -/
theorem c8_witness :
    getReadableTextColor "#FFFFFF".data =
      (if (0.55 : Q) < (0.2126 : Q) * Q.ofFrac 255 255 + (0.7152 : Q) * Q.ofFrac 255 255
            + (0.0722 : Q) * Q.ofFrac 255 255
       then "#0f172a".data else "#f8fafc".data) :=
  c8_theorem.2.2 "#FFFFFF".data ⟨Q.ofFrac 255 255, Q.ofFrac 255 255, Q.ofFrac 255 255⟩ rfl

/-- C9: any unrecognized mode tag hits the `switch` default and behaves
exactly like `random`: the base is ignored and the output is `length`
pleasant-random draws from the stream (the function is total — nothing
throws). -/
theorem c9_theorem (mode : String)
    (hm : mode ∉ ["random", "complementary", "analogous", "triadic", "tetradic",
      "split", "gradient"])
    (baseHex baseHex' : JStr) (len : ℤ) (σ : ℕ → Q) (k : ℕ) :
    generatePaletteByMode baseHex mode len σ k =
      (List.range len.toNat).map (fun i => randomPleasantHex σ (k + 3 * i)) ∧
    generatePaletteByMode baseHex mode len σ k =
      generatePaletteByMode baseHex' "random" len σ k := by
  have h1 : mode ≠ "complementary" := fun h => hm (by simp [h])
  have h2 : mode ≠ "analogous" := fun h => hm (by simp [h])
  have h3 : mode ≠ "triadic" := fun h => hm (by simp [h])
  have h4 : mode ≠ "tetradic" := fun h => hm (by simp [h])
  have h5 : mode ≠ "split" := fun h => hm (by simp [h])
  have h6 : mode ≠ "gradient" := fun h => hm (by simp [h])
  constructor
  · unfold generatePaletteByMode
    split
    · exact absurd rfl h1
    · exact absurd rfl h2
    · exact absurd rfl h3
    · exact absurd rfl h4
    · exact absurd rfl h5
    · exact absurd rfl h6
    · rfl
  · unfold generatePaletteByMode
    split
    · exact absurd rfl h1
    · exact absurd rfl h2
    · exact absurd rfl h3
    · exact absurd rfl h4
    · exact absurd rfl h5
    · exact absurd rfl h6
    · rfl

/-- Witness for C9 at the unrecognized tag `rainbow`. -/
theorem c9_witness :
    generatePaletteByMode "#123456".data "rainbow" 2 zeroRng 0 =
      (List.range (2 : ℤ).toNat).map (fun i => randomPleasantHex zeroRng (0 + 3 * i)) ∧
    generatePaletteByMode "#123456".data "rainbow" 2 zeroRng 0 =
      generatePaletteByMode "#000000".data "random" 2 zeroRng 0 :=
  c9_theorem "rainbow" (by decide) "#123456".data "#000000".data 2 zeroRng 0

/-- C10: outside the documented precondition, a non-positive requested
length yields the empty palette for every mode, and a non-positive step
count yields the empty gradient — no error in either case. -/
theorem c10_theorem (mode : String) (baseHex sHex eHex : JStr) (len steps : ℤ)
    (σ : ℕ → Q) (k : ℕ) (hlen : len ≤ 0) (hsteps : steps ≤ 0) :
    generatePaletteByMode baseHex mode len σ k = [] ∧
    generateGradientPalette sHex eHex steps σ k = [] := by
  have hl : len.toNat = 0 := Int.toNat_of_nonpos hlen
  have hs : steps.toNat = 0 := Int.toNat_of_nonpos hsteps
  constructor
  · unfold generatePaletteByMode
    split
    case _ =>
      rw [← List.length_eq_zero]
      rw [buildPaletteFromHues_length, complementaryHues_length, hl]
    case _ =>
      rw [← List.length_eq_zero]
      rw [buildPaletteFromHues_length, analogousHues_length, hl]
    case _ =>
      rw [← List.length_eq_zero]
      rw [buildPaletteFromHues_length, cycleHues_length, hl]
    case _ =>
      rw [← List.length_eq_zero]
      rw [buildPaletteFromHues_length, cycleHues_length, hl]
    case _ =>
      rw [← List.length_eq_zero]
      rw [buildPaletteFromHues_length, cycleHues_length, hl]
    case _ => rw [hl, List.replicate_zero]
    case _ => rw [hl, List.range_zero, List.map_nil]
  · unfold generateGradientPalette
    split
    case _ => rw [hs, List.range_zero, List.map_nil]
    case _ => rw [hs, List.range_zero, List.map_nil]

/-- Witness for C10 at `length = -1`, `steps = 0`. -/
theorem c10_witness :
    generatePaletteByMode "#123456".data "split" (-1) zeroRng 0 = [] ∧
    generateGradientPalette "#2563EB".data "#F97316".data 0 zeroRng 0 = [] :=
  c10_theorem "split" "#123456".data "#2563EB".data "#F97316".data (-1) 0 zeroRng 0
    (by decide) (by decide)

set_option maxRecDepth 40000 in
/-- C3 (as frozen) is false on its exactness parts: `formatHex`
serializes lowercase, so for `steps = 1` the output is `["#2563eb"]`,
not `["#2563EB"]` (the start string), and the first output of the
5-step gradient differs from `normalizeHex("#2563EB") = "#2563EB"` as a
string. -/
theorem c3_counterexample :
    generateGradientPalette "#2563EB".data "#F97316".data 1 zeroRng 0 ≠ ["#2563EB".data] ∧
    (generateGradientPalette "#2563EB".data "#F97316".data 5 zeroRng 0).getD 0 [] ≠
      normalizeHex "#2563EB".data := by
  exact ⟨by decide, by decide⟩

set_option maxRecDepth 40000 in
/-- C3 amended: for parseable endpoints and `steps ≥ 1`,
`generateGradientPalette` returns `steps` colors sampled in OKLCH space
at `t = i / max(steps − 1, 1)`; the first output of
`generateGradientPalette("#2563EB", "#F97316", 5)` equals the normalized
start color and the last equals the normalized end color up to
hex-letter case (identical RGB bytes — the OKLCH round trip reproduces
the endpoint bytes exactly here), and for `steps = 1` the output is the
single start color re-serialized in lowercase. -/
theorem c3_theorem :
    (∀ (sHex eHex : JStr) (sc ec : Rgb) (steps : ℤ) (σ : ℕ → Q) (k : ℕ),
        parseColor sHex = some sc → parseColor eHex = some ec → 1 ≤ steps →
        (generateGradientPalette sHex eHex steps σ k).length = steps.toNat ∧
        generateGradientPalette sHex eHex steps σ k =
          (List.range steps.toNat).map (fun i : ℕ =>
            serializeHex (rgbOfOklab (oklchToOklab (interpOklch (toOklchColor sc)
              (toOklchColor ec) (Q.ofFrac (i : ℤ) (max (steps - 1) 1))))))) ∧
    ((generateGradientPalette "#2563EB".data "#F97316".data 5 zeroRng 0).getD 0 []).map jsToUpper
        = normalizeHex "#2563EB".data ∧
    ((generateGradientPalette "#2563EB".data "#F97316".data 5 zeroRng 0).getD 4 []).map jsToUpper
        = normalizeHex "#F97316".data ∧
    generateGradientPalette "#2563EB".data "#F97316".data 1 zeroRng 0 = ["#2563eb".data] ∧
    "#2563eb".data.map jsToUpper = normalizeHex "#2563EB".data := by
  refine ⟨?_, by decide, by decide, by decide, by decide⟩
  intro sHex eHex sc ec steps σ k h1 h2 h3
  unfold generateGradientPalette
  rw [h1, h2]
  exact ⟨by rw [List.length_map, List.length_range], rfl⟩

/-- Witness for C3's sampling contract at endpoints `#112233`/`#445566`,
3 steps. -/
theorem c3_witness :
    (generateGradientPalette "#112233".data "#445566".data 3 zeroRng 0).length
      = (3 : ℤ).toNat :=
  (c3_theorem.1 "#112233".data "#445566".data
    ⟨Q.ofFrac 17 255, Q.ofFrac 34 255, Q.ofFrac 51 255⟩
    ⟨Q.ofFrac 68 255, Q.ofFrac 85 255, Q.ofFrac 102 255⟩ 3 zeroRng 0 rfl rfl
    (by decide)).1
